import Mathlib

/-!
A verification development for the OmniWire-MCP news-aggregation server.

The definitions below are a shallow embedding of the TypeScript core:

* `CircuitBreaker` and its operations embed
  `src/services/sentinel/circuit-breaker.ts`.  Wall-clock reads
  (`new Date()` / `Date.now()`) become an explicit `now : Int`
  (milliseconds) threaded through each operation; log statements, which
  never affect state, are dropped, together with the log-only
  `error : string` argument of `recordFailure` and the ignored
  `_responseTimeMs` argument of the breaker-level `recordSuccess`.
* `SentinelService` embeds `src/services/sentinel/index.ts`; the three
  JavaScript `Map`s become functions `String → Option _`, and the
  `EventEmitter` calls become an explicit list of emitted
  `SentinelEvent`s returned by each operation.
* The per-item normalizers of the RSS/Atom, JSON and HTML adapters embed
  `parseRSSItem` / `parseAtomEntry` (src/services/parser/adapters/rss.ts),
  `mapToNewsItem` (json.ts) and `extractItem` (html.ts).  The dynamic
  field extraction over untyped records (`getString`, `getAtomLink`,
  querySelector lookups, `new Date(...)` parsing) is modelled by records
  whose fields hold the already-extracted `Option String` / timestamp
  values; JavaScript truthiness of strings (empty string is falsy) is
  modelled explicitly by `strTruthy` / `jsOrStr`.
* `fetchNewsPipeline` embeds the post-processing of the `fetch-news`
  tool (src/mcp/tools.ts): keyword filter, date sort (a stable insertion
  sort, matching the ES2019 stable `Array.prototype.sort` with
  comparator `dateB - dateA`), and the limit truncation.
-/

namespace OmniWire

/-- The three circuit states of `src/services/sentinel/types.ts`. -/
inductive CircuitState
  | CLOSED
  | OPEN
  | HALF_OPEN
deriving DecidableEq, Repr

/-- Breaker configuration triple (`CircuitBreakerConfig`). -/
structure CircuitBreakerConfig where
  failureThreshold : Nat
  recoveryTimeoutMs : Nat
  successThreshold : Nat
deriving DecidableEq, Repr

/-- The mutable fields of the `CircuitBreaker` class.  Timestamps are
milliseconds as `Int`; `null` becomes `none`. -/
structure CircuitBreaker where
  state : CircuitState
  failureCount : Nat
  successCount : Nat
  lastFailureTime : Option Int
  lastStateChange : Int
  nextAttemptTime : Option Int
deriving DecidableEq, Repr

/-- Field initializers of the `CircuitBreaker` class: CLOSED, zero
counters, `lastStateChange = new Date()` (the construction time `t0`). -/
def initBreaker (t0 : Int) : CircuitBreaker :=
  { state := .CLOSED
    failureCount := 0
    successCount := 0
    lastFailureTime := none
    lastStateChange := t0
    nextAttemptTime := none }

namespace CircuitBreaker

/-- `transitionTo(newState)`: set state and `lastStateChange`; entering
OPEN sets `nextAttemptTime = now + recoveryTimeoutMs`, any other state
clears it; entering CLOSED zeroes both counters. -/
def transitionTo (cfg : CircuitBreakerConfig) (cb : CircuitBreaker) (now : Int)
    (newState : CircuitState) : CircuitBreaker :=
  let cb1 := { cb with state := newState, lastStateChange := now }
  let cb2 :=
    if newState = .OPEN then
      { cb1 with nextAttemptTime := some (now + (cfg.recoveryTimeoutMs : Int)) }
    else
      { cb1 with nextAttemptTime := none }
  if newState = .CLOSED then
    { cb2 with failureCount := 0, successCount := 0 }
  else cb2

/-- `shouldAttemptRecovery()`: only an OPEN breaker with a set
`nextAttemptTime` that has been reached answers `true`. -/
def shouldAttemptRecovery (cb : CircuitBreaker) (now : Int) : Bool :=
  match cb.state, cb.nextAttemptTime with
  | .OPEN, some t => decide (t ≤ now)
  | _, _ => false

/-- `getState()`: performs the lazy OPEN → HALF_OPEN transition before
reporting the state; returns the reported state and the updated breaker. -/
def getState (cfg : CircuitBreakerConfig) (cb : CircuitBreaker) (now : Int) :
    CircuitState × CircuitBreaker :=
  if cb.state = .OPEN ∧ shouldAttemptRecovery cb now = true then
    let cb' := transitionTo cfg cb now .HALF_OPEN
    (cb'.state, cb')
  else (cb.state, cb)

/-- `canExecute()`: CLOSED and HALF_OPEN allow a request; an OPEN breaker
allows one only once the recovery timeout has elapsed (transitioning to
HALF_OPEN).  Returns the decision and the updated breaker. -/
def canExecute (cfg : CircuitBreakerConfig) (cb : CircuitBreaker) (now : Int) :
    Bool × CircuitBreaker :=
  let res := getState cfg cb now
  let currentState := res.1
  let cb1 := res.2
  if currentState = .CLOSED then (true, cb1)
  else if currentState = .HALF_OPEN then (true, cb1)
  else if shouldAttemptRecovery cb1 now = true then
    (true, transitionTo cfg cb1 now .HALF_OPEN)
  else (false, cb1)

/-- `recordSuccess()`: bump the success streak, clear the failure streak,
and close the breaker once a HALF_OPEN success streak reaches
`successThreshold`. -/
def recordSuccess (cfg : CircuitBreakerConfig) (cb : CircuitBreaker) (now : Int) :
    CircuitBreaker :=
  let cb1 := { cb with successCount := cb.successCount + 1, failureCount := 0 }
  if cb1.state = .HALF_OPEN ∧ cfg.successThreshold ≤ cb1.successCount then
    transitionTo cfg cb1 now .CLOSED
  else cb1

/-- `recordFailure(error)`: bump the failure streak, clear the success
streak, stamp `lastFailureTime`; a HALF_OPEN breaker reopens at once,
otherwise the breaker opens when the streak reaches `failureThreshold`. -/
def recordFailure (cfg : CircuitBreakerConfig) (cb : CircuitBreaker) (now : Int) :
    CircuitBreaker :=
  let cb1 := { cb with
    failureCount := cb.failureCount + 1
    successCount := 0
    lastFailureTime := some now }
  if cb1.state = .HALF_OPEN then
    transitionTo cfg cb1 now .OPEN
  else if cfg.failureThreshold ≤ cb1.failureCount then
    transitionTo cfg cb1 now .OPEN
  else cb1

/-- `reset()`: operator override back to CLOSED with zeroed counters. -/
def reset (cfg : CircuitBreakerConfig) (cb : CircuitBreaker) (now : Int) :
    CircuitBreaker :=
  let cb1 := transitionTo cfg cb now .CLOSED
  { cb1 with failureCount := 0, successCount := 0 }

/-- The record returned by `getMetrics()`. -/
structure Metrics where
  state : CircuitState
  failureCount : Nat
  successCount : Nat
  lastFailureTime : Option Int
  lastStateChange : Int
  nextAttemptTime : Option Int
deriving DecidableEq, Repr

/-- `getMetrics()`: a plain field snapshot.  Note that the source reads
`this.state` directly and does not call the `getState()` getter, so no
lazy OPEN → HALF_OPEN check happens here. -/
def getMetrics (cb : CircuitBreaker) : Metrics :=
  { state := cb.state
    failureCount := cb.failureCount
    successCount := cb.successCount
    lastFailureTime := cb.lastFailureTime
    lastStateChange := cb.lastStateChange
    nextAttemptTime := cb.nextAttemptTime }

end CircuitBreaker

/-- Fold of consecutive `recordFailure` calls at the given timestamps. -/
def applyFailures (cfg : CircuitBreakerConfig) (cb : CircuitBreaker)
    (ts : List Int) : CircuitBreaker :=
  ts.foldl (fun b t => CircuitBreaker.recordFailure cfg b t) cb

/-- One breaker operation, as a step relation (the argument of each
constructor is the wall-clock time of the call).  `getMetrics` is absent
because it returns a snapshot and leaves the breaker untouched. -/
inductive BreakerStep (cfg : CircuitBreakerConfig) :
    CircuitBreaker → CircuitBreaker → Prop
  | getState (cb : CircuitBreaker) (now : Int) :
      BreakerStep cfg cb (CircuitBreaker.getState cfg cb now).2
  | canExecute (cb : CircuitBreaker) (now : Int) :
      BreakerStep cfg cb (CircuitBreaker.canExecute cfg cb now).2
  | recordSuccess (cb : CircuitBreaker) (now : Int) :
      BreakerStep cfg cb (CircuitBreaker.recordSuccess cfg cb now)
  | recordFailure (cb : CircuitBreaker) (now : Int) :
      BreakerStep cfg cb (CircuitBreaker.recordFailure cfg cb now)
  | reset (cb : CircuitBreaker) (now : Int) :
      BreakerStep cfg cb (CircuitBreaker.reset cfg cb now)

/-- Breakers reachable from a freshly constructed one by any sequence of
operations. -/
def BreakerReachable (cfg : CircuitBreakerConfig) (t0 : Int)
    (cb : CircuitBreaker) : Prop :=
  Relation.ReflTransGen (BreakerStep cfg) (initBreaker t0) cb

/-! ## Sentinel service (src/services/sentinel/index.ts) -/

/-- The part of a `SourceConfig` record (src/config/schema.ts) the
sentinel consumes: `registerSource` stores it and `getSourceHealth`
reads `name`. -/
structure SourceConfig where
  id : String
  name : String
  url : String
  enabled : Bool
deriving DecidableEq, Repr

/-- The per-source statistics record held in the `sourceStats` map. -/
structure SourceStats where
  totalRequests : Nat
  totalFailures : Nat
  lastSuccess : Option Int
  lastFailure : Option Int
  lastError : Option String
  responseTimes : List Nat
deriving DecidableEq, Repr

/-- The stats record created by `registerSource`. -/
def initStats : SourceStats :=
  { totalRequests := 0
    totalFailures := 0
    lastSuccess := none
    lastFailure := none
    lastError := none
    responseTimes := [] }

/-- The notifications `SentinelService` emits through its
`EventEmitter`. -/
inductive SentinelEvent
  | sourceHealthy (sourceId : String)
  | sourceDegraded (sourceId : String) (failures : Nat)
  | sourceUnhealthy (sourceId : String) (error : String)
  | circuitOpened (sourceId : String) (reason : String)
  | circuitClosed (sourceId : String)
deriving DecidableEq, Repr

/-- The `SentinelService` state: its three `Map`s (modelled as functions
to `Option`) and the breaker configuration. -/
structure SentinelService where
  circuitBreakers : String → Option CircuitBreaker
  sourceStats : String → Option SourceStats
  sourceConfigs : String → Option SourceConfig
  config : CircuitBreakerConfig

/-- `Map.set`: point update of a modelled map. -/
def mapSet {α : Type} (m : String → Option α) (k : String) (v : α) :
    String → Option α :=
  fun k' => if k' = k then some v else m k'

/-- The `push` / conditional `shift` block of
`SentinelService.recordSuccess`: append the sample, then drop the oldest
once more than 10 are held. -/
def pushResponseTime (rts : List Nat) (rt : Nat) : List Nat :=
  let pushed := rts ++ [rt]
  if 10 < pushed.length then pushed.tail else pushed

namespace SentinelService

/-- `registerSource(source)`: a no-op when the id is already present,
otherwise create a fresh breaker (at construction time `now`) and zeroed
stats and remember the config. -/
def registerSource (svc : SentinelService) (source : SourceConfig) (now : Int) :
    SentinelService :=
  match svc.circuitBreakers source.id with
  | some _ => svc
  | none =>
    { svc with
      circuitBreakers := mapSet svc.circuitBreakers source.id (initBreaker now)
      sourceStats := mapSet svc.sourceStats source.id initStats
      sourceConfigs := mapSet svc.sourceConfigs source.id source }

/-- `recordSuccess(sourceId, responseTimeMs?)`: early return when the id
is unknown to either map; otherwise update the breaker and the stats
(push the latency into the bounded ring when one was given) and emit
`source:healthy`. -/
def recordSuccess (svc : SentinelService) (sourceId : String) (now : Int)
    (responseTimeMs : Option Nat) : SentinelService × List SentinelEvent :=
  match svc.circuitBreakers sourceId, svc.sourceStats sourceId with
  | some breaker, some stats =>
    let breaker1 := CircuitBreaker.recordSuccess svc.config breaker now
    let rts :=
      match responseTimeMs with
      | some rt => pushResponseTime stats.responseTimes rt
      | none => stats.responseTimes
    let stats1 := { stats with
      totalRequests := stats.totalRequests + 1
      lastSuccess := some now
      responseTimes := rts }
    ({ svc with
        circuitBreakers := mapSet svc.circuitBreakers sourceId breaker1
        sourceStats := mapSet svc.sourceStats sourceId stats1 },
      [SentinelEvent.sourceHealthy sourceId])
  | _, _ => (svc, [])

/-- `recordFailure(sourceId, error)`: early return when the id is unknown
to either map; otherwise update the breaker and the stats and emit
either `source:unhealthy` + `circuit:opened` (breaker now OPEN) or
`source:degraded`. -/
def recordFailure (svc : SentinelService) (sourceId : String) (now : Int)
    (error : String) : SentinelService × List SentinelEvent :=
  match svc.circuitBreakers sourceId, svc.sourceStats sourceId with
  | some breaker, some stats =>
    let breaker1 := CircuitBreaker.recordFailure svc.config breaker now
    let stats1 := { stats with
      totalRequests := stats.totalRequests + 1
      totalFailures := stats.totalFailures + 1
      lastFailure := some now
      lastError := some error }
    let metrics := CircuitBreaker.getMetrics breaker1
    let events :=
      if metrics.state = .OPEN then
        [SentinelEvent.sourceUnhealthy sourceId error,
         SentinelEvent.circuitOpened sourceId error]
      else
        [SentinelEvent.sourceDegraded sourceId metrics.failureCount]
    ({ svc with
        circuitBreakers := mapSet svc.circuitBreakers sourceId breaker1
        sourceStats := mapSet svc.sourceStats sourceId stats1 },
      events)
  | _, _ => (svc, [])

/-- Fold of `recordSuccess` calls, each given as
`(sourceId, now, responseTimeMs?)`. -/
def applyRecordSuccesses (svc : SentinelService)
    (calls : List (String × Int × Option Nat)) : SentinelService :=
  calls.foldl (fun s c => (recordSuccess s c.1 c.2.1 c.2.2).1) svc

end SentinelService

/-- Every stats record in the service keeps at most 10 latency samples. -/
def RTBound (svc : SentinelService) : Prop :=
  ∀ id s, svc.sourceStats id = some s → s.responseTimes.length ≤ 10

/-! ## Canonical item record and adapter per-item normalizers -/

/-- The canonical `NewsItem` record (src/services/parser/types.ts).
`publishedAt` is a millisecond timestamp; the JSON adapter's free-form
`metadata` bag is omitted (no claim touches it). -/
structure NewsItem where
  id : String
  title : String
  link : String
  description : Option String
  content : Option String
  author : Option String
  publishedAt : Option Int
  categories : List String
  sourceId : String
  sourceName : String
  imageUrl : Option String
deriving DecidableEq, Repr

/-- JavaScript truthiness of a possibly-absent string: `undefined`,
`null` and the empty string are falsy. -/
def strTruthy : Option String → Bool
  | none => false
  | some s => !(s == "")

/-- JavaScript `a || b` where `a` is a possibly-absent string and `b` a
string: `b` when `a` is absent or empty. -/
def jsOrStr (a : Option String) (b : String) : String :=
  match a with
  | some s => if s == "" then b else s
  | none => b

/-- JavaScript `a || b` on two possibly-absent strings. -/
def jsOrOpt (a b : Option String) : Option String :=
  match a with
  | some s => if s == "" then b else some s
  | none => b

/-- JavaScript `ToInt32`: wrap an integer into `[-2^31, 2^31)`. -/
def toInt32 (n : Int) : Int :=
  (n + 2 ^ 31) % 2 ^ 32 - 2 ^ 31

/-- One round of the adapters' string hash:
`hash = ((hash << 5) - hash) + charCode; hash = hash & hash`.  The shift
wraps to 32 bits on its own, the sum is exact in doubles, and the final
`& hash` wraps the sum to a signed 32-bit value. -/
def hashStep (h : Int) (c : Nat) : Int :=
  toInt32 (toInt32 (h * 32) - h + c)

/-- The numeric value of the adapters' `hashString` loop over the
character codes of `s`, starting from 0. -/
def hashCode (s : List Char) : Int :=
  s.foldl (fun h c => hashStep h c.toNat) 0

namespace RSSAdapter

/-- `RSSAdapter.hashString`: `` `hash-${Math.abs(hash)}` ``. -/
def hashString (s : String) : String :=
  "hash-" ++ toString (hashCode s.data).natAbs

/-- The fields of one raw RSS `<item>` after the dynamic extraction
helpers ran: `guid`, `link`, `title`, `description`, `content:encoded`,
`author` and `dc:creator` hold `getString(...)`, `pubDate` holds
`parseDate(item.pubDate)`, `categories` holds
`extractCategories(item.category)` and `imageUrl` holds
`extractRSSImage(item)`. -/
structure RSSItem where
  guid : Option String
  link : Option String
  title : Option String
  description : Option String
  content : Option String
  author : Option String
  dcCreator : Option String
  pubDate : Option Int
  categories : List String
  imageUrl : Option String
deriving DecidableEq, Repr

/-- `RSSAdapter.parseRSSItem`: drop the item when both link and title
are falsy, otherwise derive `id = guid || link || hashString(title || "")`
and fill the canonical record. -/
def parseRSSItem (item : RSSItem) (sourceId sourceName : String) :
    Option NewsItem :=
  let link := item.link
  let title := item.title
  if !strTruthy link && !strTruthy title then none
  else
    let id := jsOrStr item.guid (jsOrStr link (hashString (title.getD "")))
    some
      { id := id
        title := jsOrStr title "Untitled"
        link := jsOrStr link ""
        description := item.description
        content := item.content
        author := jsOrOpt item.author item.dcCreator
        publishedAt := item.pubDate
        categories := item.categories
        sourceId := sourceId
        sourceName := sourceName
        imageUrl := item.imageUrl }

/-- The fields of one raw Atom `<entry>` after extraction: `idField`
holds `getString(entry.id)`, `link` holds `getAtomLink(entry.link)`,
`content` holds `getAtomContent(entry.content)`, `author` holds
`getAtomAuthor(entry.author)`, `published`/`updated` hold
`parseDate(...)` and `categories` holds
`extractAtomCategories(entry.category)`. -/
structure AtomEntry where
  idField : Option String
  link : Option String
  title : Option String
  summary : Option String
  content : Option String
  author : Option String
  published : Option Int
  updated : Option Int
  categories : List String
deriving DecidableEq, Repr

/-- `RSSAdapter.parseAtomEntry`: same gate and id derivation as
`parseRSSItem`, with the entry's `id` element as the native identifier;
`publishedAt = parseDate(published) || parseDate(updated)` (a parsed
`Date` is always truthy, so this is `Option.orElse`); Atom entries carry
no image. -/
def parseAtomEntry (entry : AtomEntry) (sourceId sourceName : String) :
    Option NewsItem :=
  let link := entry.link
  let title := entry.title
  if !strTruthy link && !strTruthy title then none
  else
    let id := jsOrStr entry.idField (jsOrStr link (hashString (title.getD "")))
    some
      { id := id
        title := jsOrStr title "Untitled"
        link := jsOrStr link ""
        description := entry.summary
        content := entry.content
        author := entry.author
        publishedAt := match entry.published with
          | some t => some t
          | none => entry.updated
        categories := entry.categories
        sourceId := sourceId
        sourceName := sourceName
        imageUrl := none }

end RSSAdapter

namespace JSONAdapter

/-- `JSONAdapter.hashObject`: hash of `JSON.stringify(obj)`, rendered as
`` `json-${Math.abs(hash)}` ``. -/
def hashObject (stringified : String) : String :=
  "json-" ++ toString (hashCode stringified.data).natAbs

/-- One raw JSON object after the flexible field mapping ran: each field
holds the adapter's `getString(obj, [...keys])` / `getArray` result for
its key group, `publishedAt` holds
`publishedStr ? new Date(publishedStr) : undefined`, and `stringified`
holds `JSON.stringify(obj)` (the input of `hashObject`). -/
structure JSONObj where
  nativeId : Option String
  link : Option String
  title : Option String
  description : Option String
  content : Option String
  author : Option String
  publishedAt : Option Int
  categories : List String
  imageUrl : Option String
  stringified : String
deriving DecidableEq, Repr

/-- `JSONAdapter.mapToNewsItem`: drop the object when both link and
title are falsy, otherwise derive
`id = (id||guid||uuid) || link || hashObject(obj)` — note the final
fallback hashes the stringified whole object. -/
def mapToNewsItem (obj : JSONObj) (sourceId sourceName : String) :
    Option NewsItem :=
  let link := obj.link
  let title := obj.title
  if !strTruthy link && !strTruthy title then none
  else
    let id := jsOrStr obj.nativeId (jsOrStr link (hashObject obj.stringified))
    some
      { id := id
        title := jsOrStr title "Untitled"
        link := jsOrStr link ""
        description := obj.description
        content := obj.content
        author := obj.author
        publishedAt := obj.publishedAt
        categories := obj.categories
        sourceId := sourceId
        sourceName := sourceName
        imageUrl := obj.imageUrl }

end JSONAdapter

namespace HTMLAdapter

/-- `HTMLAdapter.hashString`: `` `html-${Math.abs(hash)}` ``. -/
def hashString (s : String) : String :=
  "html-" ++ toString (hashCode s.data).natAbs

/-- One matched HTML element after the querySelector extraction ran:
`link` holds `linkEl?.getAttribute('href') || ''`, `title` holds
`titleEl?.text.trim() || linkEl?.text.trim() || ''`, and the optional
fields hold the respective selector results (`publishedAt` only when the
parsed date was valid).  URL resolution is the identity here: the
claims pass no `baseUrl` option, and `resolveUrl(url)` without a base
returns `url` unchanged on every branch. -/
structure HTMLItemEl where
  link : String
  title : String
  description : Option String
  author : Option String
  publishedAt : Option Int
  categories : List String
  imageUrl : Option String
deriving DecidableEq, Repr

/-- `HTMLAdapter.extractItem`: drop the element when both link and title
are empty; the id is always `hashString(link || title)` — a hash, never
the raw link and never a native identifier. -/
def extractItem (el : HTMLItemEl) (sourceId sourceName : String) :
    Option NewsItem :=
  if el.link == "" && el.title == "" then none
  else
    let id := hashString (if el.link == "" then el.title else el.link)
    some
      { id := id
        title := if el.title == "" then "Untitled" else el.title
        link := el.link
        description := el.description
        content := none
        author := el.author
        publishedAt := el.publishedAt
        categories := el.categories
        sourceId := sourceId
        sourceName := sourceName
        imageUrl := el.imageUrl }

end HTMLAdapter

/-! ## The fetch-news post-processing pipeline (src/mcp/tools.ts) -/

/-- `s.toLowerCase()` over the characters of a string. -/
def lowerChars (s : String) : List Char :=
  s.data.map Char.toLower

/-- `String.prototype.includes`: does `pat` occur contiguously in
`hay`?  The empty pattern always occurs. -/
def containsSub (pat : List Char) : List Char → Bool
  | [] => pat.isEmpty
  | c :: t => pat.isPrefixOf (c :: t) || containsSub pat t

/-- The `fetch-news` keyword predicate: the lowered filter occurs in the
lowered title, description or content (absent fields never match). -/
def matchesFilter (lowerFilter : List Char) (it : NewsItem) : Bool :=
  containsSub lowerFilter (lowerChars it.title) ||
  (match it.description with
    | some d => containsSub lowerFilter (lowerChars d)
    | none => false) ||
  (match it.content with
    | some c => containsSub lowerFilter (lowerChars c)
    | none => false)

/-- The sort key of the `fetch-news` comparator:
`item.publishedAt ? new Date(item.publishedAt).getTime() : 0` — a
missing publish date counts as the epoch, timestamp 0. -/
def sortKey (it : NewsItem) : Int :=
  match it.publishedAt with
  | some t => t
  | none => 0

/-- Stable insertion step for the descending date sort: the new item
goes after every already-placed item whose key is at least as large. -/
def insertByDateDesc (x : NewsItem) : List NewsItem → List NewsItem
  | [] => [x]
  | y :: ys => if sortKey y < sortKey x then x :: y :: ys else y :: insertByDateDesc x ys

/-- The `allItems.sort((a, b) => dateB - dateA)` call: a stable sort by
descending `sortKey` (ES2019 `Array.prototype.sort` is stable). -/
def sortByDateDesc (items : List NewsItem) : List NewsItem :=
  items.foldl (fun acc x => insertByDateDesc x acc) []

/-- Lines 352–370 of the `fetch-news` tool: apply the keyword filter
(skipped for an absent or empty filter — `if (filter)`), sort by date
descending, and truncate to `limit`. -/
def fetchNewsPipeline (allItems : List NewsItem) (filter : Option String)
    (limit : Nat) : List NewsItem :=
  let filtered :=
    match filter with
    | some f => if f == "" then allItems
                else allItems.filter (matchesFilter (lowerChars f))
    | none => allItems
  (sortByDateDesc filtered).take limit

/-! ## Concrete instances used by witnesses and counterexamples -/

/-- An item published 5 ms before the Unix epoch. -/
def itemPreEpoch : NewsItem :=
  ⟨"a", "A", "", none, none, none, some (-5), [], "s", "n", none⟩

/-- An item with no publish date. -/
def itemNoDate : NewsItem :=
  ⟨"b", "B", "", none, none, none, none, [], "s", "n", none⟩

/-- A sentinel with one freshly registered source `"a"` and config
`{failureThreshold := 3, recoveryTimeoutMs := 60000, successThreshold := 2}`. -/
def sentinelExample : SentinelService :=
  { circuitBreakers := fun k => if k = "a" then some (initBreaker 0) else none
    sourceStats := fun k => if k = "a" then some initStats else none
    sourceConfigs := fun k =>
      if k = "a" then some ⟨"a", "Source A", "http://a.example", true⟩ else none
    config := ⟨3, 60000, 2⟩ }

/-! # Theorems -/

namespace CircuitBreaker

/-- `transitionTo` into OPEN: stamp the change, set
`nextAttemptTime = now + recoveryTimeoutMs`, keep the counters. -/
theorem transitionTo_OPEN (cfg : CircuitBreakerConfig) (cb : CircuitBreaker)
    (now : Int) :
    transitionTo cfg cb now .OPEN =
      { cb with
        state := .OPEN
        lastStateChange := now
        nextAttemptTime := some (now + (cfg.recoveryTimeoutMs : Int)) } := rfl

/-- `transitionTo` into CLOSED: stamp the change, clear
`nextAttemptTime`, zero both counters. -/
theorem transitionTo_CLOSED (cfg : CircuitBreakerConfig) (cb : CircuitBreaker)
    (now : Int) :
    transitionTo cfg cb now .CLOSED =
      { cb with
        state := .CLOSED
        failureCount := 0
        successCount := 0
        lastStateChange := now
        nextAttemptTime := none } := rfl

/-- `transitionTo` into HALF_OPEN: stamp the change, clear
`nextAttemptTime`, keep the counters. -/
theorem transitionTo_HALF_OPEN (cfg : CircuitBreakerConfig) (cb : CircuitBreaker)
    (now : Int) :
    transitionTo cfg cb now .HALF_OPEN =
      { cb with
        state := .HALF_OPEN
        lastStateChange := now
        nextAttemptTime := none } := rfl

end CircuitBreaker

/-- The target of any `transitionTo` satisfies the
`nextAttemptTime`-iff-OPEN invariant. -/
theorem transitionTo_inv (cfg : CircuitBreakerConfig) (cb : CircuitBreaker)
    (now : Int) (st : CircuitState) :
    ((CircuitBreaker.transitionTo cfg cb now st).nextAttemptTime ≠ none ↔
      (CircuitBreaker.transitionTo cfg cb now st).state = .OPEN) := by
  cases st <;>
    simp [CircuitBreaker.transitionTo_OPEN, CircuitBreaker.transitionTo_CLOSED,
      CircuitBreaker.transitionTo_HALF_OPEN]

/-- Every single breaker operation preserves the
`nextAttemptTime`-iff-OPEN invariant. -/
theorem breakerStep_inv (cfg : CircuitBreakerConfig) {cb cb' : CircuitBreaker}
    (h : BreakerStep cfg cb cb')
    (hInv : cb.nextAttemptTime ≠ none ↔ cb.state = .OPEN) :
    (cb'.nextAttemptTime ≠ none ↔ cb'.state = .OPEN) := by
  cases h with
  | getState now =>
    unfold CircuitBreaker.getState
    dsimp only
    split
    · exact transitionTo_inv cfg _ _ _
    · exact hInv
  | canExecute now =>
    unfold CircuitBreaker.canExecute CircuitBreaker.getState
    dsimp only
    repeat' split
    all_goals first
      | exact transitionTo_inv cfg _ _ _
      | exact hInv
  | recordSuccess now =>
    unfold CircuitBreaker.recordSuccess
    dsimp only
    split
    · exact transitionTo_inv cfg _ _ _
    · exact hInv
  | recordFailure now =>
    unfold CircuitBreaker.recordFailure
    dsimp only
    repeat' split
    all_goals first
      | exact transitionTo_inv cfg _ _ _
      | exact hInv
  | reset now =>
    simp [CircuitBreaker.reset, CircuitBreaker.transitionTo_CLOSED]

/-- C6: starting from a fresh breaker (CLOSED, `nextAttemptTime = null`),
after every sequence of `canExecute` / `recordSuccess` / `recordFailure`
/ `reset` / state-query operations, `nextAttemptTime` is non-null
exactly when the state is OPEN (`getMetrics` returns a snapshot and
leaves the breaker untouched, so it needs no step). -/
theorem breaker_nextAttemptTime_iff_open (cfg : CircuitBreakerConfig)
    (t0 : Int) (cb : CircuitBreaker) (h : BreakerReachable cfg t0 cb) :
    ((initBreaker t0).state = .CLOSED ∧ (initBreaker t0).nextAttemptTime = none) ∧
      (cb.nextAttemptTime ≠ none ↔ cb.state = .OPEN) := by
  refine ⟨⟨rfl, rfl⟩, ?_⟩
  induction h with
  | refl => simp [initBreaker]
  | tail _ step ih => exact breakerStep_inv cfg step ih

/-- C6 witness: the theorem applied to the fresh breaker itself. -/
theorem breaker_nextAttemptTime_iff_open_witness :
    ((initBreaker 0).state = .CLOSED ∧ (initBreaker 0).nextAttemptTime = none) ∧
      ((initBreaker 0).nextAttemptTime ≠ none ↔ (initBreaker 0).state = .OPEN) :=
  breaker_nextAttemptTime_iff_open ⟨3, 60000, 2⟩ 0 (initBreaker 0)
    Relation.ReflTransGen.refl

/-- A failure recorded on an OPEN breaker leaves it OPEN (whether or not
it re-enters OPEN via `transitionTo`) and extends the failure streak. -/
theorem recordFailure_open_stays (cfg : CircuitBreakerConfig)
    (cb : CircuitBreaker) (now : Int) (h : cb.state = .OPEN) :
    (CircuitBreaker.recordFailure cfg cb now).state = .OPEN ∧
      (CircuitBreaker.recordFailure cfg cb now).failureCount =
        cb.failureCount + 1 := by
  unfold CircuitBreaker.recordFailure
  dsimp only
  rw [h]
  split
  · next hcontra => exact absurd hcontra (by decide)
  · split
    · simp [CircuitBreaker.transitionTo_OPEN]
    · simp [h]

/-- A failure recorded on a CLOSED breaker extends the streak and opens
the breaker exactly when the new streak reaches the threshold. -/
theorem recordFailure_closed_step (cfg : CircuitBreakerConfig)
    (cb : CircuitBreaker) (now : Int) (h : cb.state = .CLOSED) :
    (CircuitBreaker.recordFailure cfg cb now).failureCount =
        cb.failureCount + 1 ∧
      (CircuitBreaker.recordFailure cfg cb now).state =
        (if cfg.failureThreshold ≤ cb.failureCount + 1 then CircuitState.OPEN
         else .CLOSED) := by
  unfold CircuitBreaker.recordFailure
  dsimp only
  rw [h]
  split
  · next hcontra => exact absurd hcontra (by decide)
  · split
    · next hth => simp [CircuitBreaker.transitionTo_OPEN, if_pos hth]
    · next hth => simp [h, if_neg hth]

/-- A run of failures on an OPEN breaker keeps it OPEN and adds its
length to the streak. -/
theorem applyFailures_open (cfg : CircuitBreakerConfig) (ts : List Int) :
    ∀ cb : CircuitBreaker, cb.state = .OPEN →
      (applyFailures cfg cb ts).state = .OPEN ∧
        (applyFailures cfg cb ts).failureCount =
          cb.failureCount + ts.length := by
  induction ts with
  | nil => intro cb h; simp [applyFailures, h]
  | cons t ts ih =>
    intro cb h
    have hs := recordFailure_open_stays cfg cb t h
    have hrec := ih (CircuitBreaker.recordFailure cfg cb t) hs.1
    refine ⟨?_, ?_⟩
    · simpa [applyFailures] using hrec.1
    · have : (applyFailures cfg (CircuitBreaker.recordFailure cfg cb t) ts).failureCount =
          cb.failureCount + 1 + ts.length := by rw [hrec.2, hs.2]
      simpa [applyFailures, Nat.add_assoc, Nat.add_comm 1 ts.length] using this

/-- A run of failures on a CLOSED breaker whose streak is still under the
threshold: the streak grows by the run length, and the final state is
OPEN exactly when the total streak reaches the threshold. -/
theorem applyFailures_closed (cfg : CircuitBreakerConfig) (ts : List Int) :
    ∀ cb : CircuitBreaker, cb.state = .CLOSED →
      cb.failureCount < cfg.failureThreshold →
      (applyFailures cfg cb ts).failureCount = cb.failureCount + ts.length ∧
        (applyFailures cfg cb ts).state =
          (if cfg.failureThreshold ≤ cb.failureCount + ts.length then
            CircuitState.OPEN
           else .CLOSED) := by
  induction ts with
  | nil =>
    intro cb h hlt
    refine ⟨by simp [applyFailures], ?_⟩
    simp only [applyFailures, List.foldl_nil, List.length_nil, Nat.add_zero]
    rw [if_neg (by omega)]
    exact h
  | cons t ts ih =>
    intro cb h hlt
    obtain ⟨hc, hst⟩ := recordFailure_closed_step cfg cb t h
    by_cases hth : cfg.failureThreshold ≤ cb.failureCount + 1
    · rw [if_pos hth] at hst
      have hrec := applyFailures_open cfg ts (CircuitBreaker.recordFailure cfg cb t) hst
      refine ⟨?_, ?_⟩
      · have := hrec.2
        rw [hc] at this
        simpa [applyFailures, Nat.add_assoc, Nat.add_comm 1 ts.length] using this
      · rw [if_pos (by simp only [List.length_cons]; omega)]
        simpa [applyFailures] using hrec.1
    · rw [if_neg hth] at hst
      have hlt1 : (CircuitBreaker.recordFailure cfg cb t).failureCount <
          cfg.failureThreshold := by omega
      have hrec := ih (CircuitBreaker.recordFailure cfg cb t) hst hlt1
      refine ⟨?_, ?_⟩
      · have := hrec.1
        rw [hc] at this
        simpa [applyFailures, Nat.add_assoc, Nat.add_comm 1 ts.length] using this
      · have := hrec.2
        rw [hc] at this
        simpa [applyFailures, Nat.add_assoc, Nat.add_comm 1 ts.length] using this

/-- C1: over any sequence of consecutive `recordFailure` calls on a
fresh (CLOSED) breaker, the failure count equals the number of calls,
the breaker is still CLOSED while fewer than `failureThreshold` calls
have happened, and it is OPEN from the call at which the count reaches
the threshold onward — in particular on every further failure. -/
theorem breaker_opens_at_failure_threshold (cfg : CircuitBreakerConfig)
    (hth : 1 ≤ cfg.failureThreshold) (t0 : Int) (ts : List Int) :
    (applyFailures cfg (initBreaker t0) ts).failureCount = ts.length ∧
      (ts.length < cfg.failureThreshold →
        (applyFailures cfg (initBreaker t0) ts).state = .CLOSED) ∧
      (cfg.failureThreshold ≤ ts.length →
        (applyFailures cfg (initBreaker t0) ts).state = .OPEN) := by
  have h := applyFailures_closed cfg ts (initBreaker t0) rfl
    (by simp only [initBreaker]; omega)
  refine ⟨by simpa [initBreaker] using h.1, ?_, ?_⟩
  · intro hlt
    rw [h.2, if_neg (by simp only [initBreaker]; omega)]
  · intro hge
    rw [h.2, if_pos (by simp only [initBreaker]; omega)]

/-- C1 witness at `failureThreshold = 3`: two failures leave the breaker
CLOSED, the third opens it, with the count tracking the calls. -/
theorem breaker_opens_at_failure_threshold_witness :
    (applyFailures ⟨3, 60000, 2⟩ (initBreaker 0) [1, 2, 3]).failureCount = 3 ∧
      (applyFailures ⟨3, 60000, 2⟩ (initBreaker 0) [1, 2]).state =
        CircuitState.CLOSED ∧
      (applyFailures ⟨3, 60000, 2⟩ (initBreaker 0) [1, 2, 3]).state =
        CircuitState.OPEN :=
  ⟨by
      have h := (breaker_opens_at_failure_threshold ⟨3, 60000, 2⟩ (by decide) 0
        [1, 2, 3]).1
      simpa using h,
   (breaker_opens_at_failure_threshold ⟨3, 60000, 2⟩ (by decide) 0 [1, 2]).2.1
      (by decide),
   (breaker_opens_at_failure_threshold ⟨3, 60000, 2⟩ (by decide) 0 [1, 2, 3]).2.2
      (by decide)⟩

/-- On an OPEN breaker whose `nextAttemptTime` is set,
`shouldAttemptRecovery` is exactly the clock comparison. -/
theorem shouldAttemptRecovery_open (cfg : CircuitBreakerConfig)
    (cb : CircuitBreaker) (t now : Int) (hst : cb.state = .OPEN)
    (hnat : cb.nextAttemptTime = some t) :
    CircuitBreaker.shouldAttemptRecovery cb now = decide (t ≤ now) := by
  unfold CircuitBreaker.shouldAttemptRecovery
  rw [hst, hnat]

/-- C2: once a breaker is OPEN with `nextAttemptTime =
openedAt + recoveryTimeoutMs`, every `canExecute` strictly before that
instant returns `false` and changes nothing, while the first
`canExecute` or state query at or after it returns `true` / HALF_OPEN
and clears `nextAttemptTime`.  (Transitions happen only inside these
query calls: the embedding has no other way to change state.) -/
theorem breaker_recovery_window (cfg : CircuitBreakerConfig)
    (cb : CircuitBreaker) (openedAt now : Int) (hst : cb.state = .OPEN)
    (hnat : cb.nextAttemptTime = some (openedAt + (cfg.recoveryTimeoutMs : Int))) :
    (now < openedAt + (cfg.recoveryTimeoutMs : Int) →
      CircuitBreaker.canExecute cfg cb now = (false, cb)) ∧
      (openedAt + (cfg.recoveryTimeoutMs : Int) ≤ now →
        (CircuitBreaker.canExecute cfg cb now).1 = true ∧
          (CircuitBreaker.canExecute cfg cb now).2.state = .HALF_OPEN ∧
          (CircuitBreaker.canExecute cfg cb now).2.nextAttemptTime = none ∧
          (CircuitBreaker.getState cfg cb now).1 = .HALF_OPEN ∧
          (CircuitBreaker.getState cfg cb now).2.nextAttemptTime = none) := by
  have hsar := shouldAttemptRecovery_open cfg cb
    (openedAt + (cfg.recoveryTimeoutMs : Int)) now hst hnat
  constructor
  · intro hlt
    have hfalse : CircuitBreaker.shouldAttemptRecovery cb now = false := by
      rw [hsar]; exact decide_eq_false (not_le.mpr hlt)
    simp [CircuitBreaker.canExecute, CircuitBreaker.getState, hst, hfalse]
  · intro hge
    have htrue : CircuitBreaker.shouldAttemptRecovery cb now = true := by
      rw [hsar]; exact decide_eq_true hge
    simp [CircuitBreaker.canExecute, CircuitBreaker.getState, hst, htrue,
      CircuitBreaker.transitionTo_HALF_OPEN]

/-- C2 witness with `recoveryTimeoutMs = 60`, opened at 40: at time 99
the breaker still blocks unchanged; at time 100 it admits the request
and sits in HALF_OPEN with `nextAttemptTime` cleared. -/
theorem breaker_recovery_window_witness :
    CircuitBreaker.canExecute ⟨3, 60, 2⟩ ⟨.OPEN, 3, 0, some 40, 40, some 100⟩ 99 =
      (false, ⟨.OPEN, 3, 0, some 40, 40, some 100⟩) ∧
      (CircuitBreaker.canExecute ⟨3, 60, 2⟩
          ⟨.OPEN, 3, 0, some 40, 40, some 100⟩ 100).1 = true ∧
      (CircuitBreaker.canExecute ⟨3, 60, 2⟩
          ⟨.OPEN, 3, 0, some 40, 40, some 100⟩ 100).2.state = .HALF_OPEN ∧
      (CircuitBreaker.canExecute ⟨3, 60, 2⟩
          ⟨.OPEN, 3, 0, some 40, 40, some 100⟩ 100).2.nextAttemptTime = none :=
  have h99 := breaker_recovery_window ⟨3, 60, 2⟩
    ⟨.OPEN, 3, 0, some 40, 40, some 100⟩ 40 99 rfl (by decide)
  have h100 := breaker_recovery_window ⟨3, 60, 2⟩
    ⟨.OPEN, 3, 0, some 40, 40, some 100⟩ 40 100 rfl (by decide)
  ⟨h99.1 (by decide), (h100.2 (by decide)).1, (h100.2 (by decide)).2.1,
    (h100.2 (by decide)).2.2.1⟩

/-- C3: a single failure in HALF_OPEN reopens the breaker at once — no
threshold is consulted and any success streak is irrelevant — and
restarts the recovery window at the failure's own time. -/
theorem breaker_halfOpen_failure_reopens (cfg : CircuitBreakerConfig)
    (cb : CircuitBreaker) (now : Int) (hst : cb.state = .HALF_OPEN) :
    (CircuitBreaker.recordFailure cfg cb now).state = .OPEN ∧
      (CircuitBreaker.recordFailure cfg cb now).nextAttemptTime =
        some (now + (cfg.recoveryTimeoutMs : Int)) := by
  unfold CircuitBreaker.recordFailure
  dsimp only
  rw [hst]
  simp [CircuitBreaker.transitionTo_OPEN]

/-- C3 witness: a HALF_OPEN breaker that has already seen one probing
success reopens on the failure at time 30, with the window restarted to
30 + 60000. -/
theorem breaker_halfOpen_failure_reopens_witness :
    (CircuitBreaker.recordFailure ⟨3, 60000, 2⟩
        ⟨.HALF_OPEN, 0, 1, some 10, 20, none⟩ 30).state = CircuitState.OPEN ∧
      (CircuitBreaker.recordFailure ⟨3, 60000, 2⟩
          ⟨.HALF_OPEN, 0, 1, some 10, 20, none⟩ 30).nextAttemptTime =
        some 60030 :=
  have h := breaker_halfOpen_failure_reopens ⟨3, 60000, 2⟩
    ⟨.HALF_OPEN, 0, 1, some 10, 20, none⟩ 30 rfl
  ⟨h.1, h.2.trans (by decide)⟩

/-- C9: a failure recorded on an already-OPEN breaker whose streak is at
or above the threshold re-enters OPEN and moves `nextAttemptTime` to the
failure's time plus the timeout — at or beyond the old window end
whenever the failure happens at or after the opening. -/
theorem breaker_open_failure_extends_window (cfg : CircuitBreakerConfig)
    (cb : CircuitBreaker) (openedAt now : Int) (hst : cb.state = .OPEN)
    (hcnt : cfg.failureThreshold ≤ cb.failureCount)
    (hnat : cb.nextAttemptTime = some (openedAt + (cfg.recoveryTimeoutMs : Int)))
    (hle : openedAt ≤ now) :
    (CircuitBreaker.recordFailure cfg cb now).state = .OPEN ∧
      (CircuitBreaker.recordFailure cfg cb now).nextAttemptTime =
        some (now + (cfg.recoveryTimeoutMs : Int)) ∧
      openedAt + (cfg.recoveryTimeoutMs : Int) ≤
        now + (cfg.recoveryTimeoutMs : Int) := by
  refine ⟨?_, ?_, by omega⟩ <;>
  · unfold CircuitBreaker.recordFailure
    dsimp only
    rw [hst]
    rw [if_neg (by decide), if_pos (by omega)]
    simp [CircuitBreaker.transitionTo_OPEN]

/-- C9 witness: an OPEN breaker (threshold 3, streak 3, window ending at
100) sees a failure at time 200; it stays OPEN and the window now ends
at 260 ≥ 100. -/
theorem breaker_open_failure_extends_window_witness :
    (CircuitBreaker.recordFailure ⟨3, 60, 2⟩
        ⟨.OPEN, 3, 0, some 40, 40, some 100⟩ 200).state = CircuitState.OPEN ∧
      (CircuitBreaker.recordFailure ⟨3, 60, 2⟩
          ⟨.OPEN, 3, 0, some 40, 40, some 100⟩ 200).nextAttemptTime =
        some 260 ∧
      (100 : Int) ≤ 260 :=
  have h := breaker_open_failure_extends_window ⟨3, 60, 2⟩
    ⟨.OPEN, 3, 0, some 40, 40, some 100⟩ 40 200 rfl (by decide) (by decide)
    (by decide)
  ⟨h.1, h.2.1.trans (by decide), by decide⟩

/-- C5 (amended): `getMetrics` is the raw field snapshot — read-only,
with no side effect at all, and in particular without the lazy
OPEN → HALF_OPEN check: on an OPEN breaker it always reports OPEN, even
at a time when the state getter would already report HALF_OPEN. -/
theorem getMetrics_raw_snapshot (cfg : CircuitBreakerConfig)
    (cb : CircuitBreaker) (now : Int) :
    CircuitBreaker.getMetrics cb =
      ⟨cb.state, cb.failureCount, cb.successCount, cb.lastFailureTime,
        cb.lastStateChange, cb.nextAttemptTime⟩ ∧
      (cb.state = .OPEN → (CircuitBreaker.getMetrics cb).state = .OPEN) ∧
      (cb.state = .OPEN → CircuitBreaker.shouldAttemptRecovery cb now = true →
        (CircuitBreaker.getMetrics cb).state ≠
          (CircuitBreaker.getState cfg cb now).1) := by
  refine ⟨rfl, fun h => h, fun h hs => ?_⟩
  have : (CircuitBreaker.getState cfg cb now).1 = .HALF_OPEN := by
    simp [CircuitBreaker.getState, h, hs, CircuitBreaker.transitionTo_HALF_OPEN]
  rw [this]
  show cb.state ≠ .HALF_OPEN
  rw [h]
  decide

/-- C5 counterexample: an OPEN breaker with `nextAttemptTime = 100`
queried at time 200 ≥ 100.  The claim says the reported state is
HALF_OPEN; `getMetrics` reports OPEN (the state getter, by contrast,
would report HALF_OPEN). -/
theorem getMetrics_lazy_check_refuted :
    (CircuitBreaker.getMetrics ⟨.OPEN, 3, 0, some 50, 50, some 100⟩).state =
        CircuitState.OPEN ∧
      (CircuitBreaker.getMetrics
          ⟨.OPEN, 3, 0, some 50, 50, some 100⟩).state ≠
        CircuitState.HALF_OPEN ∧
      (100 : Int) ≤ 200 ∧
      (CircuitBreaker.getState ⟨3, 50, 2⟩
          ⟨.OPEN, 3, 0, some 50, 50, some 100⟩ 200).1 =
        CircuitState.HALF_OPEN := by
  refine ⟨rfl, by decide, by decide, rfl⟩

/-- C5 witness: the snapshot theorem applied to that same OPEN breaker
at time 200. -/
theorem getMetrics_raw_snapshot_witness :
    CircuitBreaker.getMetrics ⟨.OPEN, 3, 0, some 50, 50, some 100⟩ =
      ⟨CircuitState.OPEN, 3, 0, some 50, 50, some 100⟩ ∧
      (CircuitBreaker.getMetrics ⟨.OPEN, 3, 0, some 50, 50, some 100⟩).state ≠
        (CircuitBreaker.getState ⟨3, 50, 2⟩
          ⟨.OPEN, 3, 0, some 50, 50, some 100⟩ 200).1 :=
  ⟨(getMetrics_raw_snapshot ⟨3, 50, 2⟩
      ⟨.OPEN, 3, 0, some 50, 50, some 100⟩ 200).1,
   (getMetrics_raw_snapshot ⟨3, 50, 2⟩
      ⟨.OPEN, 3, 0, some 50, 50, some 100⟩ 200).2.2 rfl (by decide)⟩

/-- The push-then-shift block never lets the sample ring exceed 10. -/
theorem pushResponseTime_length (rts : List Nat) (rt : Nat)
    (h : rts.length ≤ 10) : (pushResponseTime rts rt).length ≤ 10 := by
  unfold pushResponseTime
  dsimp only
  split <;> simp_all [List.length_tail, List.length_append]

/-- One `SentinelService.recordSuccess` call preserves the 10-sample
bound on every stats record. -/
theorem recordSuccess_RTBound (svc : SentinelService) (sourceId : String)
    (now : Int) (rt : Option Nat) (h : RTBound svc) :
    RTBound (SentinelService.recordSuccess svc sourceId now rt).1 := by
  intro id s hs2
  unfold SentinelService.recordSuccess at hs2
  rcases hb : svc.circuitBreakers sourceId with _ | b <;>
    rcases hst : svc.sourceStats sourceId with _ | st <;>
      rw [hb, hst] at hs2 <;> dsimp only at hs2
  · exact h id s hs2
  · exact h id s hs2
  · exact h id s hs2
  · unfold mapSet at hs2
    split at hs2
    · cases hs2
      rcases rt with _ | r <;> dsimp only
      · exact h sourceId st hst
      · exact pushResponseTime_length st.responseTimes r (h sourceId st hst)
    · exact h id s hs2

/-- Every sequence of `recordSuccess` calls preserves the 10-sample
bound. -/
theorem applyRecordSuccesses_RTBound (calls : List (String × Int × Option Nat)) :
    ∀ svc : SentinelService, RTBound svc →
      RTBound (SentinelService.applyRecordSuccesses svc calls) := by
  induction calls with
  | nil => intro svc h; exact h
  | cons c calls ih =>
    intro svc h
    have h1 := recordSuccess_RTBound svc c.1 c.2.1 c.2.2 h
    simpa [SentinelService.applyRecordSuccesses] using
      ih (SentinelService.recordSuccess svc c.1 c.2.1 c.2.2).1 h1

/-- A latency-carrying `recordSuccess` on a registered source: the
breaker advances by its own `recordSuccess`, the stats advance with the
sample pushed, and the config is untouched. -/
theorem recordSuccess_present (svc : SentinelService) (sourceId : String)
    (now : Int) (rt : Nat) (b : CircuitBreaker) (st : SourceStats)
    (hb : svc.circuitBreakers sourceId = some b)
    (hst : svc.sourceStats sourceId = some st) :
    (SentinelService.recordSuccess svc sourceId now (some rt)).1.circuitBreakers
        sourceId = some (CircuitBreaker.recordSuccess svc.config b now) ∧
      (SentinelService.recordSuccess svc sourceId now (some rt)).1.sourceStats
        sourceId =
        some { st with
          totalRequests := st.totalRequests + 1
          lastSuccess := some now
          responseTimes := pushResponseTime st.responseTimes rt } ∧
      (SentinelService.recordSuccess svc sourceId now (some rt)).1.config =
        svc.config := by
  unfold SentinelService.recordSuccess
  rw [hb, hst]
  refine ⟨?_, ?_, rfl⟩ <;> simp [mapSet]

/-- Folding latency-carrying successes for one source id: the source
stays registered and its sample ring is the fold of the push-then-shift
step over the latencies. -/
theorem applyRS_same_id (sourceId : String) (t : Int) (lats : List Nat) :
    ∀ (svc : SentinelService) (b : CircuitBreaker) (st : SourceStats),
      svc.circuitBreakers sourceId = some b →
      svc.sourceStats sourceId = some st →
      ∃ b' st',
        (SentinelService.applyRecordSuccesses svc
            (lats.map fun l => (sourceId, t, some l))).circuitBreakers sourceId =
          some b' ∧
        (SentinelService.applyRecordSuccesses svc
            (lats.map fun l => (sourceId, t, some l))).sourceStats sourceId =
          some st' ∧
        st'.responseTimes = lats.foldl pushResponseTime st.responseTimes := by
  induction lats with
  | nil => intro svc b st hb hst; exact ⟨b, st, hb, hst, rfl⟩
  | cons l lats ih =>
    intro svc b st hb hst
    have hp := recordSuccess_present svc sourceId t l b st hb hst
    obtain ⟨b', st', h1, h2, h3⟩ :=
      ih (SentinelService.recordSuccess svc sourceId t (some l)).1 _ _ hp.1 hp.2.1
    refine ⟨b', st', ?_, ?_, ?_⟩
    · simpa [SentinelService.applyRecordSuccesses] using h1
    · simpa [SentinelService.applyRecordSuccesses] using h2
    · rw [h3]; simp

/-- C7: (a) after any sequence of `recordSuccess` calls every source's
sample ring holds at most 10 latencies; (b) eleven latency-carrying
successes on a freshly registered source leave exactly the last ten
samples — the first latency has been evicted and no longer contributes
to the reported average (a function of `responseTimes` alone). -/
theorem sentinel_responseTimes_ring (svc : SentinelService) (hB : RTBound svc)
    (calls : List (String × Int × Option Nat)) (sourceId : String)
    (b : CircuitBreaker) (st : SourceStats)
    (hb : svc.circuitBreakers sourceId = some b)
    (hst : svc.sourceStats sourceId = some st)
    (hnil : st.responseTimes = [])
    (l0 l1 l2 l3 l4 l5 l6 l7 l8 l9 l10 : Nat) (t : Int) :
    RTBound (SentinelService.applyRecordSuccesses svc calls) ∧
      ((SentinelService.applyRecordSuccesses svc
            ([l0, l1, l2, l3, l4, l5, l6, l7, l8, l9, l10].map
              fun l => (sourceId, t, some l))).sourceStats sourceId).map
          SourceStats.responseTimes =
        some [l1, l2, l3, l4, l5, l6, l7, l8, l9, l10] := by
  refine ⟨applyRecordSuccesses_RTBound calls svc hB, ?_⟩
  obtain ⟨b', st', _, h2, h3⟩ :=
    applyRS_same_id sourceId t [l0, l1, l2, l3, l4, l5, l6, l7, l8, l9, l10]
      svc b st hb hst
  rw [h2, Option.map_some']
  rw [hnil] at h3
  rw [h3]
  simp [pushResponseTime]

/-- C7 witness: eleven successes with latencies 1..11 on the example
sentinel's source `"a"` leave exactly the samples 2..11. -/
theorem sentinel_responseTimes_ring_witness :
    ((SentinelService.applyRecordSuccesses sentinelExample
          ([1, 2, 3, 4, 5, 6, 7, 8, 9, 10, 11].map
            fun l => ("a", (0 : Int), some l))).sourceStats "a").map
        SourceStats.responseTimes =
      some [2, 3, 4, 5, 6, 7, 8, 9, 10, 11] :=
  (sentinel_responseTimes_ring sentinelExample
    (by
      intro id s h
      simp only [sentinelExample] at h
      split at h
      · cases h; decide
      · exact absurd h (by simp))
    [] "a" (initBreaker 0) initStats (by simp [sentinelExample])
    (by simp [sentinelExample]) rfl 1 2 3 4 5 6 7 8 9 10 11 0).2

/-- C10: `recordSuccess` and `recordFailure` on a source id unknown to
the breaker map (or the stats map) return the service unchanged — every
breaker, stats record and config entry as before — and emit no event. -/
theorem sentinel_unregistered_noop (svc : SentinelService) (sourceId : String)
    (now : Int) (rt : Option Nat) (err : String)
    (h : svc.circuitBreakers sourceId = none ∨ svc.sourceStats sourceId = none) :
    SentinelService.recordSuccess svc sourceId now rt = (svc, []) ∧
      SentinelService.recordFailure svc sourceId now err = (svc, []) := by
  rcases hb : svc.circuitBreakers sourceId with _ | b <;>
    rcases hst : svc.sourceStats sourceId with _ | st
  case some.some =>
    rcases h with h | h
    · rw [hb] at h; exact absurd h (by simp)
    · rw [hst] at h; exact absurd h (by simp)
  all_goals
    constructor <;>
      simp [SentinelService.recordSuccess, SentinelService.recordFailure, hb, hst]

/-- C10 witness: both operations on the empty sentinel with the unknown
id `"x"`. -/
theorem sentinel_unregistered_noop_witness :
    SentinelService.recordSuccess
        ⟨fun _ => none, fun _ => none, fun _ => none, ⟨3, 60000, 2⟩⟩ "x" 0 none =
      (⟨fun _ => none, fun _ => none, fun _ => none, ⟨3, 60000, 2⟩⟩, []) ∧
      SentinelService.recordFailure
        ⟨fun _ => none, fun _ => none, fun _ => none, ⟨3, 60000, 2⟩⟩ "x" 0
        "boom" =
      (⟨fun _ => none, fun _ => none, fun _ => none, ⟨3, 60000, 2⟩⟩, []) :=
  sentinel_unregistered_noop _ "x" 0 none "boom" (Or.inl rfl)

/-- Appending to a non-empty string never yields the empty string. -/
theorem append_ne_empty (a b : String) (h : a.data ≠ []) : a ++ b ≠ "" := by
  intro hc
  apply h
  have hdata : (a ++ b).data = a.data ++ b.data := String.data_append a b
  rw [hc] at hdata
  exact (List.append_eq_nil.mp hdata.symm).1

/-- `RSSAdapter.hashString` output is never empty. -/
theorem rss_hashString_ne_empty (s : String) : RSSAdapter.hashString s ≠ "" :=
  append_ne_empty _ _ (by decide)

/-- `JSONAdapter.hashObject` output is never empty. -/
theorem json_hashObject_ne_empty (s : String) : JSONAdapter.hashObject s ≠ "" :=
  append_ne_empty _ _ (by decide)

/-- `HTMLAdapter.hashString` output is never empty. -/
theorem html_hashString_ne_empty (s : String) : HTMLAdapter.hashString s ≠ "" :=
  append_ne_empty _ _ (by decide)

/-- A truthy optional string holds a non-empty value. -/
theorem strTruthy_some {a : Option String} (h : strTruthy a = true) :
    ∃ s, a = some s ∧ s ≠ "" := by
  cases a with
  | none => simp [strTruthy] at h
  | some s =>
    refine ⟨s, rfl, ?_⟩
    simpa [strTruthy] using h

/-- JavaScript `||` keeps a truthy left operand. -/
theorem jsOrStr_truthy {a : Option String} (b : String)
    (h : strTruthy a = true) : some (jsOrStr a b) = a := by
  obtain ⟨s, rfl, hne⟩ := strTruthy_some h
  simp [jsOrStr, hne]

/-- JavaScript `||` falls through a falsy left operand. -/
theorem jsOrStr_falsy {a : Option String} (b : String)
    (h : strTruthy a = false) : jsOrStr a b = b := by
  cases a with
  | none => rfl
  | some s =>
    have hs : s = "" := by simpa [strTruthy] using h
    simp [jsOrStr, hs]

/-- The shared `native || link || hash` id chain: its value is never
empty, equals the native identifier when that is truthy, else the link
when that is truthy, else the given hash. -/
theorem idChain_spec (g l : Option String) (hsh : String) (hne : hsh ≠ "") :
    jsOrStr g (jsOrStr l hsh) ≠ "" ∧
      (strTruthy g = true → g = some (jsOrStr g (jsOrStr l hsh))) ∧
      (strTruthy g = false → strTruthy l = true →
        l = some (jsOrStr g (jsOrStr l hsh))) ∧
      (strTruthy g = false → strTruthy l = false →
        jsOrStr g (jsOrStr l hsh) = hsh) := by
  cases hg : strTruthy g
  · have h1 : jsOrStr g (jsOrStr l hsh) = jsOrStr l hsh := jsOrStr_falsy _ hg
    cases hl : strTruthy l
    · have h2 : jsOrStr l hsh = hsh := jsOrStr_falsy _ hl
      rw [h1, h2]
      exact ⟨hne, fun hc => by simp [hg] at hc,
        fun _ hc => by simp [hl] at hc, fun _ _ => rfl⟩
    · obtain ⟨s, rfl, hsne⟩ := strTruthy_some hl
      have h2 : jsOrStr (some s) hsh = s := by simp [jsOrStr, hsne]
      rw [h1, h2]
      exact ⟨hsne, fun hc => by simp [hg] at hc, fun _ _ => rfl,
        fun _ hc => by simp [hl] at hc⟩
  · obtain ⟨s, rfl, hsne⟩ := strTruthy_some hg
    have h1 : jsOrStr (some s) (jsOrStr l hsh) = s := by simp [jsOrStr, hsne]
    rw [h1]
    exact ⟨hsne, fun _ => rfl, fun hc => by simp [hg] at hc,
      fun hc => by simp [hg] at hc⟩

/-- C4 (amended): for every kept item the id is non-empty and derived as
follows — RSS: `guid || link || "hash-"+|hash(title)|`; Atom:
`id || link || "hash-"+|hash(title)|`; JSON:
`(id/guid/uuid) || link || "json-"+|hash(JSON.stringify(obj))|` (the
final fallback hashes the stringified whole object, not the title);
HTML: always `"html-"+|hash(link || title)|` — a hash even when a link
is present.  Determinism across byte-identical parses is inherent: each
normalizer is a pure function of its item. -/
theorem adapter_id_resolution (r : RSSAdapter.RSSItem) (a : RSSAdapter.AtomEntry)
    (j : JSONAdapter.JSONObj) (e : HTMLAdapter.HTMLItemEl) (sid sn : String) :
    (∀ it, RSSAdapter.parseRSSItem r sid sn = some it →
       it.id ≠ "" ∧
         (strTruthy r.guid = true → r.guid = some it.id) ∧
         (strTruthy r.guid = false → strTruthy r.link = true →
           r.link = some it.id) ∧
         (strTruthy r.guid = false → strTruthy r.link = false →
           it.id = RSSAdapter.hashString (r.title.getD ""))) ∧
      (∀ it, RSSAdapter.parseAtomEntry a sid sn = some it →
        it.id ≠ "" ∧
          (strTruthy a.idField = true → a.idField = some it.id) ∧
          (strTruthy a.idField = false → strTruthy a.link = true →
            a.link = some it.id) ∧
          (strTruthy a.idField = false → strTruthy a.link = false →
            it.id = RSSAdapter.hashString (a.title.getD ""))) ∧
      (∀ it, JSONAdapter.mapToNewsItem j sid sn = some it →
        it.id ≠ "" ∧
          (strTruthy j.nativeId = true → j.nativeId = some it.id) ∧
          (strTruthy j.nativeId = false → strTruthy j.link = true →
            j.link = some it.id) ∧
          (strTruthy j.nativeId = false → strTruthy j.link = false →
            it.id = JSONAdapter.hashObject j.stringified)) ∧
      (∀ it, HTMLAdapter.extractItem e sid sn = some it →
        it.id ≠ "" ∧
          it.id = HTMLAdapter.hashString
            (if e.link == "" then e.title else e.link)) := by
  refine ⟨?_, ?_, ?_, ?_⟩ <;> intro it hit
  · unfold RSSAdapter.parseRSSItem at hit
    dsimp only at hit
    by_cases hcond : (!strTruthy r.link && !strTruthy r.title) = true
    · rw [if_pos hcond] at hit
      exact Option.noConfusion hit
    · rw [if_neg hcond] at hit
      injection hit with h
      subst h
      exact idChain_spec r.guid r.link _ (rss_hashString_ne_empty _)
  · unfold RSSAdapter.parseAtomEntry at hit
    dsimp only at hit
    by_cases hcond : (!strTruthy a.link && !strTruthy a.title) = true
    · rw [if_pos hcond] at hit
      exact Option.noConfusion hit
    · rw [if_neg hcond] at hit
      injection hit with h
      subst h
      exact idChain_spec a.idField a.link _ (rss_hashString_ne_empty _)
  · unfold JSONAdapter.mapToNewsItem at hit
    dsimp only at hit
    by_cases hcond : (!strTruthy j.link && !strTruthy j.title) = true
    · rw [if_pos hcond] at hit
      exact Option.noConfusion hit
    · rw [if_neg hcond] at hit
      injection hit with h
      subst h
      exact idChain_spec j.nativeId j.link _ (json_hashObject_ne_empty _)
  · unfold HTMLAdapter.extractItem at hit
    dsimp only at hit
    by_cases hcond : (e.link == "" && e.title == "") = true
    · rw [if_pos hcond] at hit
      exact Option.noConfusion hit
    · rw [if_neg hcond] at hit
      injection hit with h
      subst h
      exact ⟨html_hashString_ne_empty _, rfl⟩

/-- C4 counterexample: an HTML element with a present link `"x"` (and no
native identifier field in HTML at all).  The claim says the kept item's
id should then be the link; the code produces the hash `"html-120"`,
which differs from the link. -/
theorem adapter_id_claim_refuted :
    (HTMLAdapter.extractItem ⟨"x", "T", none, none, none, [], none⟩ "s"
          "n").map NewsItem.id = some "html-120" ∧
      (HTMLAdapter.extractItem ⟨"x", "T", none, none, none, [], none⟩ "s"
          "n").map NewsItem.link = some "x" ∧
      ("html-120" : String) ≠ "x" :=
  ⟨rfl, rfl, by decide⟩

/-- C4 witness: an RSS item carrying guid `"g"`, link `"L"` and title
`"T"` is kept with the non-empty id `"g"`, its native identifier. -/
theorem adapter_id_resolution_witness :
    NewsItem.id ⟨"g", "T", "L", none, none, none, none, [], "s", "n", none⟩ ≠
        "" ∧
      RSSAdapter.RSSItem.guid
          ⟨some "g", some "L", some "T", none, none, none, none, none, [],
            none⟩ =
        some (NewsItem.id
          ⟨"g", "T", "L", none, none, none, none, [], "s", "n", none⟩) :=
  have h := (adapter_id_resolution
    ⟨some "g", some "L", some "T", none, none, none, none, none, [], none⟩
    ⟨none, none, some "T", none, none, none, none, none, []⟩
    ⟨none, none, some "T", none, none, none, none, [], none, "o"⟩
    ⟨"x", "T", none, none, none, [], none⟩ "s" "n").1
    ⟨"g", "T", "L", none, none, none, none, [], "s", "n", none⟩ (by decide)
  ⟨h.1, h.2.1 rfl⟩

/-- Membership after an insertion step. -/
theorem mem_insertByDateDesc {x a : NewsItem} :
    ∀ {l : List NewsItem}, a ∈ insertByDateDesc x l → a = x ∨ a ∈ l := by
  intro l
  induction l with
  | nil =>
    intro h
    simpa [insertByDateDesc] using h
  | cons y ys ih =>
    intro h
    unfold insertByDateDesc at h
    split at h
    · rcases List.mem_cons.mp h with h | h
      · exact Or.inl h
      · exact Or.inr h
    · rcases List.mem_cons.mp h with h | h
      · exact Or.inr (h ▸ List.mem_cons_self y ys)
      · rcases ih h with h | h
        · exact Or.inl h
        · exact Or.inr (List.mem_cons_of_mem y h)

/-- Insertion preserves the descending-key ordering. -/
theorem pairwise_insertByDateDesc (x : NewsItem) :
    ∀ l : List NewsItem,
      List.Pairwise (fun a b => sortKey b ≤ sortKey a) l →
      List.Pairwise (fun a b => sortKey b ≤ sortKey a)
        (insertByDateDesc x l) := by
  intro l
  induction l with
  | nil =>
    intro _
    simp [insertByDateDesc]
  | cons y ys ih =>
    intro hl
    obtain ⟨hy, hys⟩ := List.pairwise_cons.mp hl
    unfold insertByDateDesc
    split
    · next hlt =>
      refine List.pairwise_cons.mpr ⟨?_, hl⟩
      intro b hb
      rcases List.mem_cons.mp hb with rfl | hb
      · exact le_of_lt hlt
      · exact le_trans (hy b hb) (le_of_lt hlt)
    · next hnlt =>
      refine List.pairwise_cons.mpr ⟨?_, ih hys⟩
      intro b hb
      rcases mem_insertByDateDesc hb with rfl | hb
      · exact not_lt.mp hnlt
      · exact hy b hb

/-- The insertion-sort fold keeps the accumulator sorted. -/
theorem pairwise_sortFold :
    ∀ (items acc : List NewsItem),
      List.Pairwise (fun a b => sortKey b ≤ sortKey a) acc →
      List.Pairwise (fun a b => sortKey b ≤ sortKey a)
        (items.foldl (fun acc x => insertByDateDesc x acc) acc) := by
  intro items
  induction items with
  | nil => intro acc h; exact h
  | cons x items ih =>
    intro acc h
    simpa using ih (insertByDateDesc x acc) (pairwise_insertByDateDesc x acc h)

/-- Everything in the insertion-sort fold comes from the accumulator or
the input. -/
theorem mem_sortFold :
    ∀ (items acc : List NewsItem) (a : NewsItem),
      a ∈ items.foldl (fun acc x => insertByDateDesc x acc) acc →
      a ∈ acc ∨ a ∈ items := by
  intro items
  induction items with
  | nil => intro acc a h; exact Or.inl h
  | cons x items ih =>
    intro acc a h
    rcases ih (insertByDateDesc x acc) a (by simpa using h) with h | h
    · rcases mem_insertByDateDesc h with h | h
      · exact Or.inr (List.mem_cons.mpr (Or.inl h))
      · exact Or.inl h
    · exact Or.inr (List.mem_cons_of_mem x h)

/-- The sorted output is pairwise descending in `sortKey`. -/
theorem pairwise_sortByDateDesc (l : List NewsItem) :
    List.Pairwise (fun a b => sortKey b ≤ sortKey a) (sortByDateDesc l) :=
  pairwise_sortFold l [] List.Pairwise.nil

/-- The sorted output draws only on the input. -/
theorem mem_sortByDateDesc {a : NewsItem} {l : List NewsItem}
    (h : a ∈ sortByDateDesc l) : a ∈ l := by
  rcases mem_sortFold l [] a h with h | h
  · cases h
  · exact h

/-- C8 (amended): the `fetch-news` output is at most `limit` long,
sorted by `publishedAt` descending with a missing date valued at the
epoch (timestamp 0) — so undated items sort below every item with a
positive timestamp but above pre-epoch ones —, contains only items
matching the case-insensitive keyword filter when a non-empty one is
given, and contains only input items. -/
theorem fetchNews_pipeline_spec (allItems : List NewsItem)
    (filt : Option String) (limit : Nat) :
    (fetchNewsPipeline allItems filt limit).length ≤ limit ∧
      List.Pairwise (fun a b => sortKey b ≤ sortKey a)
        (fetchNewsPipeline allItems filt limit) ∧
      (∀ f, filt = some f → f ≠ "" →
        ∀ it ∈ fetchNewsPipeline allItems filt limit,
          matchesFilter (lowerChars f) it = true) ∧
      (∀ it ∈ fetchNewsPipeline allItems filt limit, it ∈ allItems) := by
  unfold fetchNewsPipeline
  rcases filt with _ | f
  · refine ⟨List.length_take_le limit _, ?_, ?_, ?_⟩
    · exact (pairwise_sortByDateDesc allItems).sublist (List.take_sublist _ _)
    · intro f h
      exact Option.noConfusion h
    · intro it hit
      exact mem_sortByDateDesc (List.take_subset _ _ hit)
  · dsimp only
    by_cases hf : (f == "") = true
    · rw [if_pos hf]
      refine ⟨List.length_take_le limit _, ?_, ?_, ?_⟩
      · exact (pairwise_sortByDateDesc allItems).sublist (List.take_sublist _ _)
      · intro f' hf' hne
        injection hf' with h
        subst h
        exact absurd (eq_of_beq hf) hne
      · intro it hit
        exact mem_sortByDateDesc (List.take_subset _ _ hit)
    · rw [if_neg hf]
      refine ⟨List.length_take_le limit _, ?_, ?_, ?_⟩
      · exact (pairwise_sortByDateDesc _).sublist (List.take_sublist _ _)
      · intro f' hf' _ it hit
        injection hf' with h
        subst h
        exact (List.mem_filter.mp
          (mem_sortByDateDesc (List.take_subset _ _ hit))).2
      · intro it hit
        exact (List.mem_filter.mp
          (mem_sortByDateDesc (List.take_subset _ _ hit))).1

/-- C8 counterexample: with an item dated 5 ms before the epoch and an
undated item, the undated item sorts FIRST, not last — the code values a
missing date at timestamp 0, not as the earliest possible time. -/
theorem fetchNews_missing_date_refuted :
    fetchNewsPipeline [itemPreEpoch, itemNoDate] none 10 =
        [itemNoDate, itemPreEpoch] ∧
      itemNoDate.publishedAt = none ∧
      itemPreEpoch.publishedAt = some (-5) ∧
      itemNoDate ≠ itemPreEpoch :=
  ⟨by decide, rfl, rfl, by decide⟩

/-- C8 witness: the pipeline theorem applied to a concrete call with
filter `"b"` and limit 1. -/
theorem fetchNews_pipeline_spec_witness :
    (fetchNewsPipeline [itemPreEpoch, itemNoDate] (some "b") 1).length ≤ 1 :=
  (fetchNews_pipeline_spec [itemPreEpoch, itemNoDate] (some "b") 1).1

end OmniWire
